import Mathlib

/-!
# gowog game server: engine event loop, geometry and outbound pump

A shallow embedding of `server/game/game.go` and of `WritePump` from
`server/game/ws/wsclient.go`.

* Geometry is embedded over an arbitrary linearly ordered field with the square
  root passed in, so the definitions stay executable; the theorems instantiate
  it with the real numbers and `Real.sqrt` (exact arithmetic, the `float32`
  conversions being identities there).
* The engine is embedded by explicit state passing. The object manager, the
  players and the projectiles are Go interfaces whose implementations live in
  other packages, so they are a parameter: a record of operations over a
  registry state. Calls on the hub, the two pump goroutines started for a new
  client and the sleep are recorded, in program order, in a list of effects.
  `proto.Marshal` and `proto.Unmarshal` are the wire codec; messages are kept
  in their decoded form. Calls to `fmt.Println` are not recorded.
-/

namespace Gowog

/-! ## Geometry (`shape.Circle`, `shape.Rect`, `dist`, `isCircleRectCollision`) -/

/-- The circle of package `shape`: centre `(X, Y)` and `Radius`. -/
structure Circle (α : Type) where
  X : α
  Y : α
  Radius : α

/-- The axis-aligned rectangle of package `shape`, corners `(X1, Y1)` and `(X2, Y2)`. -/
structure Rect (α : Type) where
  X1 : α
  Y1 : α
  X2 : α
  Y2 : α

/-- The `dist` method of game.go: `Sqrt(Pow(x2-x1, 2) + Pow(y2-y1, 2))`. -/
def dist {α : Type} [LinearOrderedField α] (sqrt : α → α) (x1 y1 x2 y2 : α) : α :=
  sqrt ((x2 - x1) ^ 2 + (y2 - y1) ^ 2)

/-- The `isCircleRectCollision` method of game.go. -/
def isCircleRectCollision {α : Type} [LinearOrderedField α] (sqrt : α → α)
    (cir : Circle α) (rect : Rect α) : Bool :=
  if rect.X1 ≤ cir.X ∧ cir.X ≤ rect.X2 ∧ rect.Y1 ≤ cir.Y ∧ cir.Y ≤ rect.Y2 then
    true
  else
    let xnear := max (min cir.X rect.X2) rect.X1
    let ynear := max (min cir.Y rect.Y2) rect.Y1
    if dist sqrt cir.X cir.Y xnear ynear ≤ cir.Radius then
      true
    else
      false

/-- The centre of the circle lies in the closed rectangle. -/
def centreInside {α : Type} [LinearOrderedField α] (cir : Circle α) (rect : Rect α) : Prop :=
  rect.X1 ≤ cir.X ∧ cir.X ≤ rect.X2 ∧ rect.Y1 ≤ cir.Y ∧ cir.Y ≤ rect.Y2

/-- Clamping `v` into `[lo, hi]`: values above `hi` go to `hi`, then values
below `lo` go to `lo`. -/
def clamp {α : Type} [LinearOrderedField α] (lo hi v : α) : α :=
  max lo (min v hi)

/-- Euclidean distance from the centre of the circle to the point obtained by
clamping each coordinate of the centre into the rectangle. -/
def clampedDistance {α : Type} [LinearOrderedField α] (sqrt : α → α)
    (cir : Circle α) (rect : Rect α) : α :=
  sqrt ((cir.X - clamp rect.X1 rect.X2 cir.X) ^ 2 + (cir.Y - clamp rect.Y1 rect.Y2 cir.Y) ^ 2)

/-! ## Wire messages (package `Message_proto`)

The `float32` fields are only carried from the request to the registry and from
the registry to the reply, never computed with, so they are rationals here. -/

/-- Instants of `time.Time`, counted in clock units. -/
abbrev Time := Int

namespace Message_proto

/-- The `oneof` payload of a `ClientGameMessage`. -/
inductive ClientPayload where
  | MovePositionPayload (Id : Int) (Dx Dy : ℚ)
  | ShootPayload (PlayerId : Int) (X Y Dx Dy : ℚ)
  | InitPlayerPayload (ClientId : Int) (Name : String)
  | SetPositionPayload (Id : Int) (X Y : ℚ)
  deriving DecidableEq

/-- A decoded `ClientGameMessage`; `Message = none` is the unset `oneof`, which
is also what a frame that fails to decode leaves behind. -/
structure ClientGameMessage where
  InputSequenceNumber : Int
  TimeElapsed : ℚ
  Message : Option ClientPayload
  deriving DecidableEq

/-- The `InitPlayer` server message. -/
structure InitPlayer where
  Id : Int
  Name : String
  X : ℚ
  Y : ℚ
  IsMain : Bool
  deriving DecidableEq

/-- The `Shoot` server message. -/
structure Shoot where
  PlayerId : Int
  Id : Int
  X : ℚ
  Y : ℚ
  Dx : ℚ
  Dy : ℚ
  deriving DecidableEq

/-- A `ServerGameMessage`, by payload; `PP` is the player snapshot message and
`MP` the map message. -/
inductive ServerGameMessage (PP MP : Type) where
  | UpdatePlayerPayload (player : PP)
  | InitAllPayload (InitMap : MP) (InitPlayer : List InitPlayer)
  | InitPlayerPayload (p : InitPlayer)
  | InitShootPayload (s : Shoot)
  | RegisterClientIdPayload (ClientId : Int)
  | RemovePlayerPayload (Id : Int)
  deriving DecidableEq

end Message_proto

/-! ## The collaborators of the engine -/

/-- The types behind the interfaces the engine is written against. -/
structure Types where
  /-- State of the object manager: players, projectiles and map. -/
  World : Type
  /-- A `playerpkg.Player` value (a reference to a player of the registry). -/
  Player : Type
  /-- A `shootpkg.Shoot` value. -/
  Shoot : Type
  /-- A `mappkg.Map` value. -/
  Map : Type
  /-- The player snapshot message returned by `GetPlayerProto`. -/
  PlayerProto : Type
  /-- The map message returned by `ToProto`. -/
  MapProto : Type

/-- A position, as returned by `GetPosition`. -/
structure Point where
  X : ℚ
  Y : ℚ
  deriving DecidableEq

/-- The methods of `objmanager.ObjectManager`, `playerpkg.Player`,
`shootpkg.Shoot` and `mappkg.Map` that game.go calls, as functions of the
registry state. A method that changes the registry returns the new state. The
last argument of `Player_Shoot` is the instant of the call, for a method that
reads the clock itself. -/
structure ObjectManager (T : Types) where
  Update : T.World → T.World
  GetPlayers : T.World → List T.Player
  GetPlayerByID : T.World → Int → Option T.Player
  MovePlayer : T.World → T.Player → ℚ → ℚ → ℚ → ℚ → T.World
  SetPlayerPosition : T.World → T.Player → ℚ → ℚ → T.World
  RegisterPlayer : T.World → Int → String → T.World × T.Player
  RegisterShoot : T.World → T.Player → ℚ → ℚ → ℚ → ℚ → Time → T.World × T.Shoot
  RemovePlayer : T.World → Int → Int → T.World × Int
  GetMap : T.World → T.Map
  Player_SetCurrentInputNumber : T.World → T.Player → Int → T.World
  Player_GetNextReload : T.World → T.Player → Time
  Player_Shoot : T.World → T.Player → ℚ → ℚ → ℚ → ℚ → Time → T.World
  Player_GetID : T.World → T.Player → Int
  Player_GetName : T.World → T.Player → String
  Player_GetPosition : T.World → T.Player → Point
  Player_GetPlayerProto : T.World → T.Player → T.PlayerProto
  Shoot_GetPlayerID : T.World → T.Shoot → Int
  Shoot_GetID : T.World → T.Shoot → Int
  Shoot_GetX : T.World → T.Shoot → ℚ
  Shoot_GetY : T.World → T.Shoot → ℚ
  Shoot_GetDX : T.World → T.Shoot → ℚ
  Shoot_GetDY : T.World → T.Shoot → ℚ
  Map_ToProto : T.Map → T.MapProto

/-- The constants of package `gameconst` that the engine reads. -/
structure gameconst where
  PlayerSpeed : ℚ
  BufferSize : Nat

/-- A `ws.Client`, known to the engine by its connection and by `GetID`. -/
structure Client where
  conn : Nat
  id : Int
  deriving DecidableEq

/-- The server message type over the collaborators `T`. -/
abbrev ServerMsg (T : Types) : Type :=
  Message_proto.ServerGameMessage T.PlayerProto T.MapProto

/-- What the engine does to the outside, in program order: the three calls on
the hub, the two goroutines started for a new client, and the sleep. -/
inductive Effect (T : Types) where
  | Send (clientID : Int) (message : ServerMsg T)
  | Broadcast (message : ServerMsg T)
  | BroadcastExclude (message : ServerMsg T) (clientID : Int)
  | goWritePump (client : Client)
  | goReadPump (client : Client)
  | Sleep (d : Nat)

namespace common

/-- The event `common.DestroyPlayerEvent`. -/
structure DestroyPlayerEvent where
  PlayerID : Int
  ClientID : Int
  deriving DecidableEq

/-- The event `common.NewPlayerEvent`. -/
structure NewPlayerEvent where
  Client : Client
  deriving DecidableEq

/-- The event `common.ProcessInputEvent`, its message in decoded form. -/
structure ProcessInputEvent where
  Message : Message_proto.ClientGameMessage
  deriving DecidableEq

end common

/-! ## The engine (`gameImpl`) -/

/-- State of the engine: the registry and the three buffered channels, oldest
event first. `stopped` records that the loop goroutine has returned. -/
structure gameImpl (T : Types) where
  objManager : T.World
  destroyPlayerStream : List common.DestroyPlayerEvent
  newPlayerStream : List common.NewPlayerEvent
  inputStream : List common.ProcessInputEvent
  stopped : Bool

/-- A send on a buffered channel of capacity `cap` holding `q`: the value is
appended when there is room, and `none` stands for a sender that blocks. -/
def chanSend {α : Type} (cap : Nat) (q : List α) (v : α) : Option (List α) :=
  if q.length < cap then some (q ++ [v]) else none

namespace gameImpl

variable {T : Types}

/-- The method `Update`: advance the registry, then one broadcast per player. -/
def Update (om : ObjectManager T) (g : gameImpl T) : gameImpl T × List (Effect T) :=
  let w := om.Update g.objManager
  let out := (om.GetPlayers w).foldl
    (fun acc player =>
      acc ++ [Effect.Broadcast
        (Message_proto.ServerGameMessage.UpdatePlayerPayload (om.Player_GetPlayerProto w player))])
    []
  ({ g with objManager := w }, out)

/-- The method `ProcessInput`: put the message on the input channel. -/
def ProcessInput (c : gameconst) (g : gameImpl T) (message : Message_proto.ClientGameMessage) :
    Option (gameImpl T) :=
  (chanSend c.BufferSize g.inputStream ⟨message⟩).map fun q => { g with inputStream := q }

/-- The method `sendShootMsg`. -/
def sendShootMsg (om : ObjectManager T) (g : gameImpl T) (shoot : T.Shoot) : List (Effect T) :=
  let w := g.objManager
  [Effect.Broadcast (Message_proto.ServerGameMessage.InitShootPayload
    { PlayerId := om.Shoot_GetPlayerID w shoot
      Id := om.Shoot_GetID w shoot
      X := om.Shoot_GetX w shoot
      Y := om.Shoot_GetY w shoot
      Dx := om.Shoot_GetDX w shoot
      Dy := om.Shoot_GetDY w shoot })]

/-- The method `initPlayer`. -/
def initPlayer (om : ObjectManager T) (g : gameImpl T) (clientID : Int) (name : String) :
    gameImpl T × List (Effect T) :=
  let r := om.RegisterPlayer g.objManager clientID name
  let w := r.1
  let player := r.2
  let initPlayerMsg : Message_proto.InitPlayer :=
    { Id := om.Player_GetID w player
      Name := om.Player_GetName w player
      X := (om.Player_GetPosition w player).X
      Y := (om.Player_GetPosition w player).Y
      IsMain := true }
  ({ g with objManager := w },
    [Effect.Send clientID (Message_proto.ServerGameMessage.InitPlayerPayload initPlayerMsg),
     Effect.BroadcastExclude
      (Message_proto.ServerGameMessage.InitPlayerPayload { initPlayerMsg with IsMain := false })
      clientID])

/-- The method `processInput`. Handling one input is taken to happen at one
instant `now`, which is what each `time.Now()` of the handler returns. -/
def processInput (om : ObjectManager T) (c : gameconst) (g : gameImpl T)
    (msg : Message_proto.ClientGameMessage) (now : Time) :
    gameImpl T × List (Effect T) :=
  match msg.Message with
  | some (Message_proto.ClientPayload.MovePositionPayload id dx dy) =>
    match om.GetPlayerByID g.objManager id with
    | none => (g, [])
    | some player =>
      let w1 := om.MovePlayer g.objManager player dx dy c.PlayerSpeed msg.TimeElapsed
      let w2 := om.Player_SetCurrentInputNumber w1 player msg.InputSequenceNumber
      ({ g with objManager := w2 }, [])
  | some (Message_proto.ClientPayload.ShootPayload playerId x y dx dy) =>
    match om.GetPlayerByID g.objManager playerId with
    | none => (g, [])
    | some player =>
      if now < om.Player_GetNextReload g.objManager player then
        (g, [])
      else
        let w1 := om.Player_Shoot g.objManager player x y dx dy now
        let r := om.RegisterShoot w1 player x y dx dy now
        let g1 := { g with objManager := r.1 }
        (g1, sendShootMsg om g1 r.2)
  | some (Message_proto.ClientPayload.InitPlayerPayload clientId name) =>
    initPlayer om g clientId name
  | some (Message_proto.ClientPayload.SetPositionPayload id x y) =>
    match om.GetPlayerByID g.objManager id with
    | none => (g, [])
    | some player =>
      let w1 := om.SetPlayerPosition g.objManager player x y
      let w2 := om.Player_SetCurrentInputNumber w1 player msg.InputSequenceNumber
      ({ g with objManager := w2 }, [])
  | none => (g, [])

/-- The method `createInitAllMessage`; as in the source its `players` argument
is not read, the player list is fetched again from the registry. -/
def createInitAllMessage (om : ObjectManager T) (g : gameImpl T) (_players : List T.Player)
    (gameMap : T.Map) : ServerMsg T :=
  let initMapMsg := om.Map_ToProto gameMap
  let w := g.objManager
  let initPlayersMsg := (om.GetPlayers w).foldl
    (fun acc player =>
      acc ++ [({ Id := om.Player_GetID w player
                 Name := om.Player_GetName w player
                 X := (om.Player_GetPosition w player).X
                 Y := (om.Player_GetPosition w player).Y
                 IsMain := false } : Message_proto.InitPlayer)])
    []
  Message_proto.ServerGameMessage.InitAllPayload initMapMsg initPlayersMsg

/-- The method `NewPlayerConnect`: put the client on the new-player channel. -/
def NewPlayerConnect (c : gameconst) (g : gameImpl T) (client : Client) : Option (gameImpl T) :=
  (chanSend c.BufferSize g.newPlayerStream ⟨client⟩).map fun q => { g with newPlayerStream := q }

/-- The method `newPlayerConnect`. -/
def newPlayerConnect (om : ObjectManager T) (g : gameImpl T) (client : Client) :
    gameImpl T × List (Effect T) :=
  let clientID := client.id
  let initAllMsg :=
    createInitAllMessage om g (om.GetPlayers g.objManager) (om.GetMap g.objManager)
  (g, [Effect.goWritePump client, Effect.goReadPump client, Effect.Sleep 100,
       Effect.Send clientID initAllMsg,
       Effect.Send clientID (Message_proto.ServerGameMessage.RegisterClientIdPayload clientID)])

/-- The method `removePlayer`. -/
def removePlayer (om : ObjectManager T) (g : gameImpl T) (playerID clientID : Int) :
    gameImpl T × List (Effect T) :=
  let r := om.RemovePlayer g.objManager playerID clientID
  let rplayerID := r.2
  ({ g with objManager := r.1 },
    [Effect.Broadcast (Message_proto.ServerGameMessage.RemovePlayerPayload rplayerID)])

/-- The exported method `RemovePlayer`: it calls `removePlayer`. -/
def RemovePlayer (om : ObjectManager T) (g : gameImpl T) (playerID clientID : Int) :
    gameImpl T × List (Effect T) :=
  removePlayer om g playerID clientID

/-- The method `RemovePlayerByClientID`: put a destroy event for the client,
with player id `-1`, on the destroy channel. -/
def RemovePlayerByClientID (c : gameconst) (g : gameImpl T) (clientID : Int) :
    Option (gameImpl T) :=
  (chanSend c.BufferSize g.destroyPlayerStream { ClientID := clientID, PlayerID := -1 }).map
    fun q => { g with destroyPlayerStream := q }

/-- The case of the `select` in `gameUpdate` that fires in one iteration. -/
inductive SelectCase where
  | destroyPlayer
  | newPlayer
  | input (now : Time)
  | tick
  | quit

/-- One iteration of the loop of `gameUpdate`: the chosen case receives the
oldest event of its channel and runs its handler. `none`: the case is not ready
(its channel is empty) or the loop has returned. -/
def gameUpdate (om : ObjectManager T) (c : gameconst) (g : gameImpl T) :
    SelectCase → Option (gameImpl T × List (Effect T))
  | SelectCase.destroyPlayer =>
    if g.stopped then none else
    match g.destroyPlayerStream with
    | [] => none
    | v :: rest => some (removePlayer om { g with destroyPlayerStream := rest } v.PlayerID v.ClientID)
  | SelectCase.newPlayer =>
    if g.stopped then none else
    match g.newPlayerStream with
    | [] => none
    | v :: rest => some (newPlayerConnect om { g with newPlayerStream := rest } v.Client)
  | SelectCase.input now =>
    if g.stopped then none else
    match g.inputStream with
    | [] => none
    | v :: rest => some (processInput om c { g with inputStream := rest } v.Message now)
  | SelectCase.tick =>
    if g.stopped then none else some (Update om g)
  | SelectCase.quit =>
    if g.stopped then none else some ({ g with stopped := true }, [])

/-- Running `processInput` on each input of a list in turn, effects in order. -/
def processInputs (om : ObjectManager T) (c : gameconst) (g : gameImpl T) :
    List (Message_proto.ClientGameMessage × Time) → gameImpl T × List (Effect T)
  | [] => (g, [])
  | (msg, now) :: rest =>
    let r := processInput om c g msg now
    let r2 := processInputs om c r.1 rest
    (r2.1, r.2 ++ r2.2)

end gameImpl

/-! ## A registry

The object manager, the players, the projectiles and the map are implemented in
packages `objmanager`, `playerpkg`, `shootpkg` and `mappkg`. The registry below
follows their description and is the instance at which the engine is run on
concrete inputs. -/

namespace objmanager

/-- Modelled from the spec: the `Player` entity of package `playerpkg`, with the
attributes of the data model: player id, client id, display name, position,
latest applied input sequence number and next-allowed-shoot timestamp. -/
structure Player where
  id : Int
  clientID : Int
  name : String
  position : Point
  currentInputNumber : Int
  nextReload : Time
  deriving DecidableEq

/-- Modelled from the spec: the `Shoot` entity of package `shootpkg`, with the
attributes of the data model: id, owning player id, position and direction
vector; `age` counts the ticks it has lived. -/
structure Shoot where
  id : Int
  playerID : Int
  x : ℚ
  y : ℚ
  dx : ℚ
  dy : ℚ
  created : Time
  age : Nat
  deriving DecidableEq

/-- Modelled from the spec: the `Map` of package `mappkg`, a fixed-size grid of
`width × height` blocks. -/
structure Map where
  width : Nat
  height : Nat
  deriving DecidableEq

/-- Modelled from the spec: what the description of the registry leaves open,
namely the default spawn position, the reload delay after a shot, the lifetime
of a projectile in ticks and the sentinel returned by a removal that matches no
player. -/
structure Config where
  spawn : Point
  reload : Time
  lifetime : Nat
  sentinel : Int

/-- Modelled from the spec: the state of the object manager of package
`objmanager`: the live players in registration order, the live projectiles, the
map, and the next free player and projectile ids. -/
structure Registry where
  players : List Player
  shoots : List Shoot
  gameMap : Map
  nextPlayerID : Int
  nextShootID : Int
  deriving DecidableEq

/-- Modelled from the spec: a position clamped to the map bounds. -/
def clampToMap (m : Map) (p : Point) : Point :=
  { X := max 0 (min p.X m.width), Y := max 0 (min p.Y m.height) }

/-- Modelled from the spec: apply `f` to the player with id `id`, if there. -/
def updatePlayer (w : Registry) (id : Int) (f : Player → Player) : Registry :=
  { w with players := w.players.map fun p => if p.id = id then f p else p }

/-- Modelled from the spec: "get player by player ID" of package `objmanager`. -/
def findPlayer (w : Registry) (id : Int) : Option Player :=
  w.players.find? fun p => p.id = id

/-- Modelled from the spec: "register player(clientID, name) → new Player with
generated player ID and default spawn position" of package `objmanager`. -/
def RegisterPlayer (cfg : Config) (w : Registry) (clientID : Int) (name : String) :
    Registry × Int :=
  ({ w with
      players := w.players ++
        [{ id := w.nextPlayerID, clientID := clientID, name := name, position := cfg.spawn,
           currentInputNumber := 0, nextReload := 0 }]
      nextPlayerID := w.nextPlayerID + 1 },
    w.nextPlayerID)

/-- Modelled from the spec: "move player by displacement with speed/time
scaling, clamped to map bounds" of package `objmanager`. -/
def MovePlayer (w : Registry) (id : Int) (dx dy speed timeElapsed : ℚ) : Registry :=
  updatePlayer w id fun p =>
    { p with position := (clampToMap w.gameMap
        ⟨p.position.X + dx * speed * timeElapsed, p.position.Y + dy * speed * timeElapsed⟩) }

/-- Modelled from the spec: "set player absolute position, clamped to map
bounds" of package `objmanager`. -/
def SetPlayerPosition (w : Registry) (id : Int) (x y : ℚ) : Registry :=
  updatePlayer w id fun p => { p with position := (clampToMap w.gameMap ⟨x, y⟩) }

/-- Modelled from the spec: "update stored input sequence number to the value
carried by the message", the setter of package `playerpkg`. -/
def SetCurrentInputNumber (w : Registry) (id : Int) (n : Int) : Registry :=
  updatePlayer w id fun p => { p with currentInputNumber := n }

/-- Modelled from the spec: "record the shoot on the player (for cooldown
bookkeeping)", the method `Shoot` of package `playerpkg`: the next allowed shot
is one reload delay after the instant of the shot. -/
def PlayerShoot (cfg : Config) (w : Registry) (id : Int) (now : Time) : Registry :=
  updatePlayer w id fun p => { p with nextReload := now + cfg.reload }

/-- Modelled from the spec: "register projectile(owner, origin, direction,
creationTime) → new Projectile" of package `objmanager`. -/
def RegisterShoot (w : Registry) (owner : Int) (x y dx dy : ℚ) (created : Time) :
    Registry × Shoot :=
  let s : Shoot := { id := w.nextShootID, playerID := owner, x := x, y := y, dx := dx, dy := dy,
                     created := created, age := 0 }
  ({ w with shoots := w.shoots ++ [s], nextShootID := w.nextShootID + 1 }, s)

/-- Modelled from the spec: "update() advances every projectile, removes
projectiles that exit bounds or exceed lifetime" of package `objmanager`; what
a projectile does to a player it meets is left to the registry and not part of
this model. -/
def Update (cfg : Config) (w : Registry) : Registry :=
  let moved := w.shoots.map fun s =>
    { s with x := s.x + s.dx, y := s.y + s.dy, age := s.age + 1 }
  let kept := moved.filter fun s =>
    decide (0 ≤ s.x ∧ s.x ≤ (w.gameMap.width : ℚ) ∧ 0 ≤ s.y ∧ s.y ≤ (w.gameMap.height : ℚ) ∧
      s.age ≤ cfg.lifetime)
  { w with shoots := kept }

/-- Modelled from the spec: "remove player by player ID and/or client ID,
returning the removed player's ID (or a sentinel if none matched)" of package
`objmanager`. -/
def RemovePlayer (cfg : Config) (w : Registry) (playerID clientID : Int) : Registry × Int :=
  match w.players.find? fun p => p.id = playerID ∨ p.clientID = clientID with
  | none => (w, cfg.sentinel)
  | some p => ({ w with players := w.players.filter fun q => q.id ≠ p.id }, p.id)

/-- The types of the registry: a player is referred to by its id, a projectile
and the map by value, and the snapshot of a player is its record, if it is
still registered. -/
@[reducible]
def types : Types :=
  { World := Registry, Player := Int, Shoot := Shoot, Map := Map,
    PlayerProto := Option Player, MapProto := Map }

/-- The registry as the object manager of the engine. -/
def objectManager (cfg : Config) : ObjectManager types :=
  { Update := Update cfg
    GetPlayers := fun w => w.players.map fun p => p.id
    GetPlayerByID := fun w id => (findPlayer w id).map fun p => p.id
    MovePlayer := MovePlayer
    SetPlayerPosition := SetPlayerPosition
    RegisterPlayer := RegisterPlayer cfg
    RegisterShoot := RegisterShoot
    RemovePlayer := RemovePlayer cfg
    GetMap := fun w => w.gameMap
    Player_SetCurrentInputNumber := SetCurrentInputNumber
    Player_GetNextReload := fun w id => ((findPlayer w id).map fun p => p.nextReload).getD 0
    Player_Shoot := fun w id _ _ _ _ now => PlayerShoot cfg w id now
    Player_GetID := fun _ id => id
    Player_GetName := fun w id => ((findPlayer w id).map fun p => p.name).getD ""
    Player_GetPosition := fun w id => ((findPlayer w id).map fun p => p.position).getD ⟨0, 0⟩
    Player_GetPlayerProto := fun w id => findPlayer w id
    Shoot_GetPlayerID := fun _ s => s.playerID
    Shoot_GetID := fun _ s => s.id
    Shoot_GetX := fun _ s => s.x
    Shoot_GetY := fun _ s => s.y
    Shoot_GetDX := fun _ s => s.dx
    Shoot_GetDY := fun _ s => s.dy
    Map_ToProto := fun m => m }

end objmanager

/-! ## The outbound pump (`WritePump` of wsclient.go)

The socket is the websocket library, a parameter here: a state and, for each
call whose error the pump could read, whether it succeeds. What the pump needs
of the library, that closing a writer reports the error of a failed write, is
stated as `closeReportsWriteError`. The outbound channel is the finite list of
the messages sent on it before it is closed. The pump is embedded as the list
of the calls it makes on the socket, in order. -/

namespace ws

/-- A message of the outbound channel, a `[]byte`. -/
abbrev Bytes := List Nat

/-- The socket as the pump uses it; the boolean of a result is `err == nil`. -/
structure Conn (σ : Type) where
  SetWriteDeadline : σ → σ
  WriteMessageClose : σ → σ
  NextWriter : σ → Bool × σ
  Write : σ → Bytes → Bool × σ
  WriterClose : σ → Bool × σ

/-- A call of the pump on the socket, with the outcome of the socket. -/
inductive ConnCall where
  | SetWriteDeadline
  | WriteMessageClose
  | NextWriter (ok : Bool)
  | Write (message : Bytes) (ok : Bool)
  | WriterClose (ok : Bool)
  | Close
  deriving DecidableEq

/-- The method `WritePump`, run on the channel contents `queue` followed by the
closing of the channel. The deferred `conn.Close()` ends every run. The writer
is closed right after the one `Write`: no further message is read from the
channel into the same frame, whatever the comment above `w.Close()` says. -/
def WritePump {σ : Type} (conn : Conn σ) (s : σ) : List Bytes → List ConnCall
  | [] =>
    [ConnCall.SetWriteDeadline, ConnCall.WriteMessageClose, ConnCall.Close]
  | message :: rest =>
    let s1 := conn.SetWriteDeadline s
    let w := conn.NextWriter s1
    if w.1 = false then
      [ConnCall.SetWriteDeadline, ConnCall.NextWriter false, ConnCall.Close]
    else
      let r := conn.Write w.2 message
      let cl := conn.WriterClose r.2
      if cl.1 = false then
        [ConnCall.SetWriteDeadline, ConnCall.NextWriter true, ConnCall.Write message r.1,
         ConnCall.WriterClose false, ConnCall.Close]
      else
        [ConnCall.SetWriteDeadline, ConnCall.NextWriter true, ConnCall.Write message r.1,
         ConnCall.WriterClose true] ++ WritePump conn cl.2 rest

/-- The payloads handed to `Write`, in the order of the calls. -/
def payloads : List ConnCall → List Bytes
  | [] => []
  | ConnCall.Write message _ :: rest => message :: payloads rest
  | _ :: rest => payloads rest

/-- A call of the log that is a failed step of writing a message: a failed
`NextWriter`, a failed payload `Write` or a failed `Close` of the writer. -/
def failedStep : ConnCall → Bool
  | ConnCall.NextWriter false => true
  | ConnCall.Write _ false => true
  | ConnCall.WriterClose false => true
  | _ => false

/-- The calls that write one whole binary frame for `message`; `wok` is the
outcome of the payload `Write`. -/
def frame (message : Bytes) (wok : Bool) : List ConnCall :=
  [ConnCall.SetWriteDeadline, ConnCall.NextWriter true, ConnCall.Write message wok,
   ConnCall.WriterClose true]

/-- The frames of a list of messages with the outcomes of their payload writes. -/
def frames : List (Bytes × Bool) → List ConnCall
  | [] => []
  | (message, wok) :: rest => frame message wok ++ frames rest

/-- The contract of the writer of the websocket library, which is not part of
this repository: the writer keeps the error of a failed `Write`, and its
`Close` returns it. The pump relies on it when it does not read the result of
`w.Write(message)`. -/
def closeReportsWriteError {σ : Type} (conn : Conn σ) : Prop :=
  ∀ (s : σ) (message : Bytes),
    (conn.Write s message).1 = false → (conn.WriterClose (conn.Write s message).2).1 = false

/-- Every step of writing `message` on the socket in state `s` succeeds:
`NextWriter`, the payload `Write` and the `Close` of the writer. -/
def stepsSucceed {σ : Type} (conn : Conn σ) (s : σ) (message : Bytes) : Bool :=
  (conn.NextWriter (conn.SetWriteDeadline s)).1 &&
    ((conn.Write (conn.NextWriter (conn.SetWriteDeadline s)).2 message).1 &&
      (conn.WriterClose
        (conn.Write (conn.NextWriter (conn.SetWriteDeadline s)).2 message).2).1)

/-- The state of the socket after the steps of writing `message` from `s`. -/
def stateAfter {σ : Type} (conn : Conn σ) (s : σ) (message : Bytes) : σ :=
  (conn.WriterClose (conn.Write (conn.NextWriter (conn.SetWriteDeadline s)).2 message).2).2

/-- The outbound pump as the specification words it: the queue is split at
its first message some step of which fails. The result is the messages before
it, the state of the socket when it is reached, and the messages from it on
(none when no step fails before the queue is closed). -/
def writtenBeforeFailure {σ : Type} (conn : Conn σ) (s : σ) :
    List Bytes → List Bytes × σ × List Bytes
  | [] => ([], s, [])
  | message :: rest =>
    if stepsSucceed conn s message then
      let r := writtenBeforeFailure conn (stateAfter conn s message) rest
      (message :: r.1, r.2.1, r.2.2)
    else
      ([], s, message :: rest)

/-- The calls with which the pump ends, on the socket in state `s` and with
`left` the messages not yet written: the close frame when the queue is closed,
else the steps of the first message of `left` up to the one that fails; then
the socket is closed. -/
def stoppingCalls {σ : Type} (conn : Conn σ) (s : σ) : List Bytes → List ConnCall
  | [] =>
    [ConnCall.SetWriteDeadline, ConnCall.WriteMessageClose, ConnCall.Close]
  | message :: _ =>
    if (conn.NextWriter (conn.SetWriteDeadline s)).1 = false then
      [ConnCall.SetWriteDeadline, ConnCall.NextWriter false, ConnCall.Close]
    else
      [ConnCall.SetWriteDeadline, ConnCall.NextWriter true,
       ConnCall.Write message (conn.Write (conn.NextWriter (conn.SetWriteDeadline s)).2 message).1,
       ConnCall.WriterClose false, ConnCall.Close]

/-- A socket that keeps the error of a failed payload write until the writer
is closed; its state is the number of writers opened and the kept error. The
payload write of the second writer fails. -/
def secondWriteFails : Conn (Nat × Bool) :=
  { SetWriteDeadline := fun s => s
    WriteMessageClose := fun s => s
    NextWriter := fun s => (true, (s.1 + 1, false))
    Write := fun s _ => if s.1 = 2 then (false, (s.1, true)) else (true, s)
    WriterClose := fun s => (!s.2, (s.1, false)) }

end ws

/-! ## Predicates and concrete states used by the statements -/

/-- The input is a `MovePosition` or a `SetPosition` whose player id the
registry state `w` does not know. -/
def refersToUnknownPlayer {T : Types} (om : ObjectManager T) (w : T.World)
    (msg : Message_proto.ClientGameMessage) : Bool :=
  match msg.Message with
  | some (Message_proto.ClientPayload.MovePositionPayload id _ _) => (om.GetPlayerByID w id).isNone
  | some (Message_proto.ClientPayload.SetPositionPayload id _ _) => (om.GetPlayerByID w id).isNone
  | _ => false

/-- The player id of a `MovePosition` or `SetPosition` input. -/
def movedPlayer (msg : Message_proto.ClientGameMessage) : Option Int :=
  match msg.Message with
  | some (Message_proto.ClientPayload.MovePositionPayload id _ _) => some id
  | some (Message_proto.ClientPayload.SetPositionPayload id _ _) => some id
  | _ => none

/-- The input sequence number the registry stores for player `id`. -/
def storedInputNumber (w : objmanager.Registry) (id : Int) : Option Int :=
  (objmanager.findPlayer w id).map fun p => p.currentInputNumber

/-- A configuration of the registry: spawn at the origin, reload delay 10,
lifetime 100 ticks, sentinel `-1`. -/
def config0 : objmanager.Config :=
  { spawn := ⟨0, 0⟩, reload := 10, lifetime := 100, sentinel := -1 }

/-- Engine constants: speed 1 and channels of capacity 4. -/
def const0 : gameconst :=
  { PlayerSpeed := 1, BufferSize := 4 }

/-- An engine with no player, no projectile and empty channels. -/
def emptyGame : gameImpl objmanager.types :=
  { objManager := { players := [], shoots := [], gameMap := ⟨10, 10⟩,
                    nextPlayerID := 0, nextShootID := 0 }
    destroyPlayerStream := [], newPlayerStream := [], inputStream := [], stopped := false }

/-- An engine with the players `0` (client 7, "Alice") and `1` (client 8,
"Bob"), player 0 having applied input number 0 and being free to shoot from
instant 5 on. -/
def twoPlayerGame : gameImpl objmanager.types :=
  { objManager :=
      { players := [⟨0, 7, "Alice", ⟨1, 1⟩, 0, 5⟩, ⟨1, 8, "Bob", ⟨2, 2⟩, 0, 0⟩]
        shoots := [], gameMap := ⟨10, 10⟩, nextPlayerID := 2, nextShootID := 0 }
    destroyPlayerStream := [], newPlayerStream := [], inputStream := [], stopped := false }

/-- A `MovePosition` input for player `id` with input sequence number `seq`. -/
def moveInput (id seq : Int) : Message_proto.ClientGameMessage :=
  { InputSequenceNumber := seq, TimeElapsed := 1,
    Message := some (Message_proto.ClientPayload.MovePositionPayload id 1 0) }

/-- A `SetPosition` input for player `id` with input sequence number `seq`. -/
def setPositionInput (id seq : Int) : Message_proto.ClientGameMessage :=
  { InputSequenceNumber := seq, TimeElapsed := 0,
    Message := some (Message_proto.ClientPayload.SetPositionPayload id 3 4) }

/-- A `Shoot` input of player `id` from `(3, 4)` in direction `(1, 0)`. -/
def shootInput (id : Int) : Message_proto.ClientGameMessage :=
  { InputSequenceNumber := 0, TimeElapsed := 0,
    Message := some (Message_proto.ClientPayload.ShootPayload id 3 4 1 0) }

/-! ## Theorems -/

theorem dist_eq_clampedDistance (cir : Circle ℝ) (rect : Rect ℝ) :
    dist Real.sqrt cir.X cir.Y (max (min cir.X rect.X2) rect.X1)
      (max (min cir.Y rect.Y2) rect.Y1) = clampedDistance Real.sqrt cir rect := by
  unfold dist clampedDistance clamp
  rw [max_comm (min cir.X rect.X2) rect.X1, max_comm (min cir.Y rect.Y2) rect.Y1]
  congr 1
  ring

theorem collision_iff (cir : Circle ℝ) (rect : Rect ℝ) :
    isCircleRectCollision Real.sqrt cir rect = true ↔
      (centreInside cir rect ∨ clampedDistance Real.sqrt cir rect ≤ cir.Radius) := by
  unfold isCircleRectCollision
  by_cases h : rect.X1 ≤ cir.X ∧ cir.X ≤ rect.X2 ∧ rect.Y1 ≤ cir.Y ∧ cir.Y ≤ rect.Y2
  · rw [if_pos h]
    exact ⟨fun _ => Or.inl h, fun _ => rfl⟩
  · rw [if_neg h]
    simp only [dist_eq_clampedDistance]
    by_cases hd : clampedDistance Real.sqrt cir rect ≤ cir.Radius
    · rw [if_pos hd]
      exact ⟨fun _ => Or.inr hd, fun _ => rfl⟩
    · rw [if_neg hd]
      constructor
      · intro hf
        exact absurd hf (by decide)
      · rintro (hin | hle)
        · exact absurd hin h
        · exact absurd hle hd

/-- C4. In exact arithmetic `isCircleRectCollision` is true exactly when the
centre lies in the rectangle or the Euclidean distance from the centre to its
per-axis clamped point is at most the radius; so it is true for a centre in the
rectangle whatever the radius, true when that distance equals the radius, and
false for a centre outside whose distance exceeds the radius. -/
theorem isCircleRectCollision_characterisation (cir : Circle ℝ) (rect : Rect ℝ) :
    (isCircleRectCollision Real.sqrt cir rect = true ↔
      ((rect.X1 ≤ cir.X ∧ cir.X ≤ rect.X2 ∧ rect.Y1 ≤ cir.Y ∧ cir.Y ≤ rect.Y2) ∨
        clampedDistance Real.sqrt cir rect ≤ cir.Radius)) ∧
    ((rect.X1 ≤ cir.X ∧ cir.X ≤ rect.X2 ∧ rect.Y1 ≤ cir.Y ∧ cir.Y ≤ rect.Y2) →
      isCircleRectCollision Real.sqrt cir rect = true) ∧
    (clampedDistance Real.sqrt cir rect = cir.Radius →
      isCircleRectCollision Real.sqrt cir rect = true) ∧
    (¬ (rect.X1 ≤ cir.X ∧ cir.X ≤ rect.X2 ∧ rect.Y1 ≤ cir.Y ∧ cir.Y ≤ rect.Y2) →
      cir.Radius < clampedDistance Real.sqrt cir rect →
      isCircleRectCollision Real.sqrt cir rect = false) := by
  have key := collision_iff cir rect
  refine ⟨key, fun hin => key.mpr (Or.inl hin), fun heq => key.mpr (Or.inr (le_of_eq heq)), ?_⟩
  intro hout hfar
  cases hc : isCircleRectCollision Real.sqrt cir rect
  · rfl
  · rcases key.mp hc with hin | hle
    · exact absurd hin hout
    · exact absurd hle (not_le.mpr hfar)

theorem clamp_mem {lo hi : ℝ} (h : lo ≤ hi) (v : ℝ) :
    lo ≤ clamp lo hi v ∧ clamp lo hi v ≤ hi := by
  unfold clamp
  exact ⟨le_max_left _ _, max_le h (min_le_right _ _)⟩

theorem clamp_nearest {lo hi : ℝ} (v x : ℝ) (h1 : lo ≤ x) (h2 : x ≤ hi) :
    (v - clamp lo hi v) ^ 2 ≤ (x - v) ^ 2 := by
  unfold clamp
  rcases le_total v hi with hv | hv
  · rw [min_eq_left hv]
    rcases le_total lo v with hl | hl
    · rw [max_eq_right hl]
      nlinarith [sq_nonneg (x - v)]
    · rw [max_eq_left hl]
      nlinarith
  · rw [min_eq_right hv, max_eq_right (le_trans h1 h2)]
    nlinarith

/-- C10. For a rectangle with `X1 ≤ X2`, `Y1 ≤ Y2` and a radius `≥ 0`, in exact
arithmetic `isCircleRectCollision` is true exactly when some point of the closed
rectangle lies in the closed disc; and the per-axis clamped point is a point of
the rectangle nearest to the centre. -/
theorem isCircleRectCollision_iff_disc_meets_rect (cir : Circle ℝ) (rect : Rect ℝ)
    (hx : rect.X1 ≤ rect.X2) (hy : rect.Y1 ≤ rect.Y2) (hr : 0 ≤ cir.Radius) :
    (isCircleRectCollision Real.sqrt cir rect = true ↔
      ∃ x y : ℝ, rect.X1 ≤ x ∧ x ≤ rect.X2 ∧ rect.Y1 ≤ y ∧ y ≤ rect.Y2 ∧
        (x - cir.X) ^ 2 + (y - cir.Y) ^ 2 ≤ cir.Radius ^ 2) ∧
    (rect.X1 ≤ clamp rect.X1 rect.X2 cir.X ∧ clamp rect.X1 rect.X2 cir.X ≤ rect.X2 ∧
      rect.Y1 ≤ clamp rect.Y1 rect.Y2 cir.Y ∧ clamp rect.Y1 rect.Y2 cir.Y ≤ rect.Y2 ∧
      ∀ x y : ℝ, rect.X1 ≤ x → x ≤ rect.X2 → rect.Y1 ≤ y → y ≤ rect.Y2 →
        (clamp rect.X1 rect.X2 cir.X - cir.X) ^ 2 + (clamp rect.Y1 rect.Y2 cir.Y - cir.Y) ^ 2
          ≤ (x - cir.X) ^ 2 + (y - cir.Y) ^ 2) := by
  have hnear : ∀ x y : ℝ, rect.X1 ≤ x → x ≤ rect.X2 → rect.Y1 ≤ y → y ≤ rect.Y2 →
      (cir.X - clamp rect.X1 rect.X2 cir.X) ^ 2 + (cir.Y - clamp rect.Y1 rect.Y2 cir.Y) ^ 2
        ≤ (x - cir.X) ^ 2 + (y - cir.Y) ^ 2 := fun x y a b c d =>
    add_le_add (clamp_nearest cir.X x a b) (clamp_nearest cir.Y y c d)
  have hcx := clamp_mem hx cir.X
  have hcy := clamp_mem hy cir.Y
  refine ⟨?_, hcx.1, hcx.2, hcy.1, hcy.2, ?_⟩
  · rw [collision_iff]
    unfold centreInside clampedDistance
    rw [Real.sqrt_le_iff]
    constructor
    · rintro (⟨a, b, c, d⟩ | ⟨_, hle⟩)
      · exact ⟨cir.X, cir.Y, a, b, c, d, by nlinarith [sq_nonneg cir.Radius]⟩
      · refine ⟨_, _, hcx.1, hcx.2, hcy.1, hcy.2, ?_⟩
        calc (clamp rect.X1 rect.X2 cir.X - cir.X) ^ 2 + (clamp rect.Y1 rect.Y2 cir.Y - cir.Y) ^ 2
            = (cir.X - clamp rect.X1 rect.X2 cir.X) ^ 2
                + (cir.Y - clamp rect.Y1 rect.Y2 cir.Y) ^ 2 := by ring
          _ ≤ cir.Radius ^ 2 := hle
    · rintro ⟨x, y, a, b, c, d, hle⟩
      exact Or.inr ⟨hr, le_trans (hnear x y a b c d) hle⟩
  · intro x y a b c d
    calc (clamp rect.X1 rect.X2 cir.X - cir.X) ^ 2 + (clamp rect.Y1 rect.Y2 cir.Y - cir.Y) ^ 2
        = (cir.X - clamp rect.X1 rect.X2 cir.X) ^ 2
            + (cir.Y - clamp rect.Y1 rect.Y2 cir.Y) ^ 2 := by ring
      _ ≤ (x - cir.X) ^ 2 + (y - cir.Y) ^ 2 := hnear x y a b c d

theorem tangent_clampedDistance :
    clampedDistance Real.sqrt (⟨0, 0, 1⟩ : Circle ℝ) (⟨1, -1, 2, 1⟩ : Rect ℝ) = 1 := by
  simp [clampedDistance, clamp]

/-- Witness for C4: the unit circle at the origin is tangent to the rectangle
`[1, 2] × [-1, 1]`, and the test returns true. -/
theorem isCircleRectCollision_characterisation_witness :
    clampedDistance Real.sqrt (⟨0, 0, 1⟩ : Circle ℝ) (⟨1, -1, 2, 1⟩ : Rect ℝ) = 1 ∧
      isCircleRectCollision Real.sqrt (⟨0, 0, 1⟩ : Circle ℝ) (⟨1, -1, 2, 1⟩ : Rect ℝ) = true :=
  ⟨tangent_clampedDistance,
    (isCircleRectCollision_characterisation ⟨0, 0, 1⟩ ⟨1, -1, 2, 1⟩).2.2.1 tangent_clampedDistance⟩

/-- Witness for C10 at the unit circle and the rectangle `[1, 2] × [-1, 1]`. -/
theorem isCircleRectCollision_iff_disc_meets_rect_witness :
    ((1 : ℝ) ≤ 2 ∧ (-1 : ℝ) ≤ 1 ∧ (0 : ℝ) ≤ 1) ∧
    (isCircleRectCollision Real.sqrt (⟨0, 0, 1⟩ : Circle ℝ) (⟨1, -1, 2, 1⟩ : Rect ℝ) = true ↔
      ∃ x y : ℝ, (1 : ℝ) ≤ x ∧ x ≤ 2 ∧ (-1 : ℝ) ≤ y ∧ y ≤ 1 ∧
        (x - 0) ^ 2 + (y - 0) ^ 2 ≤ (1 : ℝ) ^ 2) :=
  ⟨⟨by norm_num, by norm_num, by norm_num⟩,
    (isCircleRectCollision_iff_disc_meets_rect ⟨0, 0, 1⟩ ⟨1, -1, 2, 1⟩
      (by norm_num) (by norm_num) (by norm_num)).1⟩

/-! ### The engine -/

namespace gameImpl

variable {T : Types}

theorem foldl_append_singleton {α β : Type} (f : α → β) (l : List α) (init : List β) :
    l.foldl (fun acc a => acc ++ [f a]) init = init ++ l.map f := by
  induction l generalizing init with
  | nil => simp
  | cons a l ih => simp [List.foldl_cons, ih]

/-- C1. Processing an `InitPlayer` input registers one player through the
registry and emits exactly a `Send` to the client of the `InitPlayer` message
with the id, name and position of the new player and `IsMain = true`, then a
`BroadcastExclude` excluding the client of the same message with
`IsMain = false`. -/
theorem processInput_initPlayer (om : ObjectManager T) (c : gameconst) (g : gameImpl T)
    (clientID : Int) (name : String) (seq : Int) (te : ℚ) (now : Time) :
    processInput om c g
        ⟨seq, te, some (Message_proto.ClientPayload.InitPlayerPayload clientID name)⟩ now =
      ({ g with objManager := (om.RegisterPlayer g.objManager clientID name).1 },
        [Effect.Send clientID (Message_proto.ServerGameMessage.InitPlayerPayload
            { Id := om.Player_GetID (om.RegisterPlayer g.objManager clientID name).1
                (om.RegisterPlayer g.objManager clientID name).2
              Name := om.Player_GetName (om.RegisterPlayer g.objManager clientID name).1
                (om.RegisterPlayer g.objManager clientID name).2
              X := (om.Player_GetPosition (om.RegisterPlayer g.objManager clientID name).1
                (om.RegisterPlayer g.objManager clientID name).2).X
              Y := (om.Player_GetPosition (om.RegisterPlayer g.objManager clientID name).1
                (om.RegisterPlayer g.objManager clientID name).2).Y
              IsMain := true }),
         Effect.BroadcastExclude (Message_proto.ServerGameMessage.InitPlayerPayload
            { Id := om.Player_GetID (om.RegisterPlayer g.objManager clientID name).1
                (om.RegisterPlayer g.objManager clientID name).2
              Name := om.Player_GetName (om.RegisterPlayer g.objManager clientID name).1
                (om.RegisterPlayer g.objManager clientID name).2
              X := (om.Player_GetPosition (om.RegisterPlayer g.objManager clientID name).1
                (om.RegisterPlayer g.objManager clientID name).2).X
              Y := (om.Player_GetPosition (om.RegisterPlayer g.objManager clientID name).1
                (om.RegisterPlayer g.objManager clientID name).2).Y
              IsMain := false }) clientID]) := by
  rfl

theorem processInput_unknown (om : ObjectManager T) (c : gameconst) (g : gameImpl T)
    (msg : Message_proto.ClientGameMessage) (now : Time)
    (h : refersToUnknownPlayer om g.objManager msg = true) :
    processInput om c g msg now = (g, []) := by
  obtain ⟨seq, te, payload⟩ := msg
  cases payload with
  | none => simp [refersToUnknownPlayer] at h
  | some pl =>
    cases pl with
    | MovePositionPayload id dx dy =>
      simp only [refersToUnknownPlayer, Option.isNone_iff_eq_none] at h
      simp only [processInput, h]
    | ShootPayload pid x y dx dy => simp [refersToUnknownPlayer] at h
    | InitPlayerPayload cid name => simp [refersToUnknownPlayer] at h
    | SetPositionPayload id x y =>
      simp only [refersToUnknownPlayer, Option.isNone_iff_eq_none] at h
      simp only [processInput, h]

/-- C2. Running `processInput` in turn on any finite sequence of `MovePosition`
and `SetPosition` inputs whose player id the registry does not know leaves the
engine state as it was and emits nothing. -/
theorem processInputs_unknown_player (om : ObjectManager T) (c : gameconst) (g : gameImpl T)
    (inputs : List (Message_proto.ClientGameMessage × Time))
    (h : ∀ i ∈ inputs, refersToUnknownPlayer om g.objManager i.1 = true) :
    processInputs om c g inputs = (g, []) := by
  induction inputs with
  | nil => rfl
  | cons i rest ih =>
    obtain ⟨msg, now⟩ := i
    have h1 : processInput om c g msg now = (g, []) :=
      processInput_unknown om c g msg now (h (msg, now) (List.mem_cons_self _ _))
    have h2 := ih fun j hj => h j (List.mem_cons_of_mem _ hj)
    simp only [processInputs, h1, h2, List.append_nil]

/-- C3. For a `Shoot` input whose player id the registry resolves, handled at
instant `now`: if the next allowed shot of the player is strictly after `now`,
the state is unchanged and nothing is emitted; otherwise the shot is recorded
on the player, one projectile is registered with the x, y, dx, dy of the
message, and exactly one `Broadcast` of the `InitShoot` message carrying the
player id, id, x, y, dx, dy of that projectile is emitted. -/
theorem processInput_shoot (om : ObjectManager T) (c : gameconst) (g : gameImpl T)
    (playerId : Int) (x y dx dy : ℚ) (seq : Int) (te : ℚ) (now : Time) (player : T.Player)
    (hfound : om.GetPlayerByID g.objManager playerId = some player) :
    (now < om.Player_GetNextReload g.objManager player →
      processInput om c g
          ⟨seq, te, some (Message_proto.ClientPayload.ShootPayload playerId x y dx dy)⟩ now =
        (g, [])) ∧
    (om.Player_GetNextReload g.objManager player ≤ now →
      processInput om c g
          ⟨seq, te, some (Message_proto.ClientPayload.ShootPayload playerId x y dx dy)⟩ now =
        ({ g with objManager :=
            (om.RegisterShoot (om.Player_Shoot g.objManager player x y dx dy now)
              player x y dx dy now).1 },
          [Effect.Broadcast (Message_proto.ServerGameMessage.InitShootPayload
            { PlayerId := om.Shoot_GetPlayerID
                (om.RegisterShoot (om.Player_Shoot g.objManager player x y dx dy now)
                  player x y dx dy now).1
                (om.RegisterShoot (om.Player_Shoot g.objManager player x y dx dy now)
                  player x y dx dy now).2
              Id := om.Shoot_GetID
                (om.RegisterShoot (om.Player_Shoot g.objManager player x y dx dy now)
                  player x y dx dy now).1
                (om.RegisterShoot (om.Player_Shoot g.objManager player x y dx dy now)
                  player x y dx dy now).2
              X := om.Shoot_GetX
                (om.RegisterShoot (om.Player_Shoot g.objManager player x y dx dy now)
                  player x y dx dy now).1
                (om.RegisterShoot (om.Player_Shoot g.objManager player x y dx dy now)
                  player x y dx dy now).2
              Y := om.Shoot_GetY
                (om.RegisterShoot (om.Player_Shoot g.objManager player x y dx dy now)
                  player x y dx dy now).1
                (om.RegisterShoot (om.Player_Shoot g.objManager player x y dx dy now)
                  player x y dx dy now).2
              Dx := om.Shoot_GetDX
                (om.RegisterShoot (om.Player_Shoot g.objManager player x y dx dy now)
                  player x y dx dy now).1
                (om.RegisterShoot (om.Player_Shoot g.objManager player x y dx dy now)
                  player x y dx dy now).2
              Dy := om.Shoot_GetDY
                (om.RegisterShoot (om.Player_Shoot g.objManager player x y dx dy now)
                  player x y dx dy now).1
                (om.RegisterShoot (om.Player_Shoot g.objManager player x y dx dy now)
                  player x y dx dy now).2 })])) := by
  constructor
  · intro hlt
    simp only [processInput, hfound, if_pos hlt]
  · intro hle
    simp only [processInput, hfound, if_neg (not_lt.mpr hle), sendShootMsg]

/-- C5. One tick advances the registry and then emits, for the players of the
advanced registry in the order of its player list, one `Broadcast` of the
`UpdatePlayer` message with the snapshot of the player, and nothing else; with
`n` players that is `n` broadcasts. -/
theorem Update_broadcasts (om : ObjectManager T) (g : gameImpl T) :
    (Update om g).1 = { g with objManager := om.Update g.objManager } ∧
    (Update om g).2 = (om.GetPlayers (om.Update g.objManager)).map (fun player =>
      Effect.Broadcast (Message_proto.ServerGameMessage.UpdatePlayerPayload
        (om.Player_GetPlayerProto (om.Update g.objManager) player))) ∧
    (Update om g).2.length = (om.GetPlayers (om.Update g.objManager)).length ∧
    (∀ p q, om.GetPlayers (om.Update g.objManager) = [p, q] →
      (Update om g).2 =
        [Effect.Broadcast (Message_proto.ServerGameMessage.UpdatePlayerPayload
          (om.Player_GetPlayerProto (om.Update g.objManager) p)),
         Effect.Broadcast (Message_proto.ServerGameMessage.UpdatePlayerPayload
          (om.Player_GetPlayerProto (om.Update g.objManager) q))]) := by
  have h : (Update om g).2 = (om.GetPlayers (om.Update g.objManager)).map (fun player =>
      Effect.Broadcast (Message_proto.ServerGameMessage.UpdatePlayerPayload
        (om.Player_GetPlayerProto (om.Update g.objManager) player))) := by
    simp only [Update]
    rw [foldl_append_singleton]
    rfl
  refine ⟨rfl, h, ?_, ?_⟩
  · rw [h, List.length_map]
  · intro p q hpq
    rw [h, hpq]
    rfl

/-- C6. `RemovePlayerByClientID` puts the destroy event of the client, with
player id `-1`, on the destroy channel; handling a destroy event always
yields a result, which is the registry after its `RemovePlayer` and exactly one
`Broadcast` of the `RemovePlayer` message with the id the registry returned; so
when the registry answers with its sentinel for a client that has no player,
the broadcast carries the sentinel. -/
theorem RemovePlayerByClientID_removePlayer (om : ObjectManager T) (c : gameconst)
    (g : gameImpl T) (clientID sentinel : Int)
    (hroom : g.destroyPlayerStream.length < c.BufferSize)
    (hsentinel : (om.RemovePlayer g.objManager (-1) clientID).2 = sentinel) :
    RemovePlayerByClientID c g clientID =
      some { g with destroyPlayerStream :=
        g.destroyPlayerStream ++ [{ ClientID := clientID, PlayerID := -1 }] } ∧
    (∀ (h : gameImpl T) (v : common.DestroyPlayerEvent) (rest : List common.DestroyPlayerEvent),
      h.stopped = false → h.destroyPlayerStream = v :: rest →
      gameUpdate om c h SelectCase.destroyPlayer =
        some (removePlayer om { h with destroyPlayerStream := rest } v.PlayerID v.ClientID)) ∧
    (∀ (h : gameImpl T) (playerID cid : Int),
      removePlayer om h playerID cid =
        ({ h with objManager := (om.RemovePlayer h.objManager playerID cid).1 },
          [Effect.Broadcast (Message_proto.ServerGameMessage.RemovePlayerPayload
            (om.RemovePlayer h.objManager playerID cid).2)])) ∧
    removePlayer om g (-1) clientID =
      ({ g with objManager := (om.RemovePlayer g.objManager (-1) clientID).1 },
        [Effect.Broadcast (Message_proto.ServerGameMessage.RemovePlayerPayload sentinel)]) := by
  refine ⟨?_, ?_, fun _ _ _ => rfl, ?_⟩
  · simp only [RemovePlayerByClientID, chanSend, if_pos hroom, Option.map_some']
  · intro h v rest hs hq
    simp only [gameUpdate, hs, hq]
    rfl
  · rw [← hsentinel]
    rfl

/-- C7, amended. `ProcessInput`, `NewPlayerConnect` and `RemovePlayerByClientID`
leave the registry as it is: when their channel has room they append one event
to it and touch nothing else, and when it is full they block. The exported
`RemovePlayer` puts nothing on a channel: it runs `removePlayer` at the call,
which applies the `RemovePlayer` of the registry and emits the broadcast. -/
theorem exported_operations (om : ObjectManager T) (c : gameconst) (g : gameImpl T) :
    (∀ message, ProcessInput c g message =
      if g.inputStream.length < c.BufferSize then
        some { g with inputStream := g.inputStream ++ [{ Message := message }] }
      else none) ∧
    (∀ client, NewPlayerConnect c g client =
      if g.newPlayerStream.length < c.BufferSize then
        some { g with newPlayerStream := g.newPlayerStream ++ [{ Client := client }] }
      else none) ∧
    (∀ clientID, RemovePlayerByClientID c g clientID =
      if g.destroyPlayerStream.length < c.BufferSize then
        some { g with destroyPlayerStream :=
          g.destroyPlayerStream ++ [{ ClientID := clientID, PlayerID := -1 }] }
      else none) ∧
    (∀ message h, ProcessInput c g message = some h → h.objManager = g.objManager) ∧
    (∀ client h, NewPlayerConnect c g client = some h → h.objManager = g.objManager) ∧
    (∀ clientID h, RemovePlayerByClientID c g clientID = some h →
      h.objManager = g.objManager) ∧
    (∀ playerID clientID, RemovePlayer om g playerID clientID =
      ({ g with objManager := (om.RemovePlayer g.objManager playerID clientID).1 },
        [Effect.Broadcast (Message_proto.ServerGameMessage.RemovePlayerPayload
          (om.RemovePlayer g.objManager playerID clientID).2)])) := by
  have h1 : ∀ message, ProcessInput c g message =
      if g.inputStream.length < c.BufferSize then
        some { g with inputStream := g.inputStream ++ [{ Message := message }] }
      else none := by
    intro message
    unfold ProcessInput chanSend
    split <;> rfl
  have h2 : ∀ client, NewPlayerConnect c g client =
      if g.newPlayerStream.length < c.BufferSize then
        some { g with newPlayerStream := g.newPlayerStream ++ [{ Client := client }] }
      else none := by
    intro client
    unfold NewPlayerConnect chanSend
    split <;> rfl
  have h3 : ∀ clientID, RemovePlayerByClientID c g clientID =
      if g.destroyPlayerStream.length < c.BufferSize then
        some { g with destroyPlayerStream :=
          g.destroyPlayerStream ++ [{ ClientID := clientID, PlayerID := -1 }] }
      else none := by
    intro clientID
    unfold RemovePlayerByClientID chanSend
    split <;> rfl
  refine ⟨h1, h2, h3, ?_, ?_, ?_, fun _ _ => rfl⟩
  · intro message h hh
    rw [h1] at hh
    split at hh
    · cases hh; rfl
    · cases hh
  · intro client h hh
    rw [h2] at hh
    split at hh
    · cases hh; rfl
    · cases hh
  · intro clientID h hh
    rw [h3] at hh
    split at hh
    · cases hh; rfl
    · cases hh

/-- Witness for C7, amended: an input put on the channel of the two-player
engine leaves its registry as it was. -/
theorem exported_operations_witness :
    ProcessInput const0 twoPlayerGame (moveInput 0 1) =
      some { twoPlayerGame with inputStream := [{ Message := moveInput 0 1 }] } ∧
    ({ twoPlayerGame with inputStream := [{ Message := moveInput 0 1 }] } :
      gameImpl objmanager.types).objManager = twoPlayerGame.objManager :=
  ⟨rfl,
    (exported_operations (objmanager.objectManager config0) const0 twoPlayerGame).2.2.2.1
      (moveInput 0 1) _ rfl⟩

end gameImpl

/-! ### The outbound pump -/

namespace ws

theorem WritePump_nextWriter_fails {σ : Type} (conn : Conn σ) (s : σ) (m : Bytes)
    (rest : List Bytes) (hnw : (conn.NextWriter (conn.SetWriteDeadline s)).1 = false) :
    WritePump conn s (m :: rest) =
      [ConnCall.SetWriteDeadline, ConnCall.NextWriter false, ConnCall.Close] := by
  simp [WritePump, hnw]

theorem WritePump_close_fails {σ : Type} (conn : Conn σ) (s : σ) (m : Bytes)
    (rest : List Bytes) (hnw : (conn.NextWriter (conn.SetWriteDeadline s)).1 = true)
    (hcl : (conn.WriterClose
      (conn.Write (conn.NextWriter (conn.SetWriteDeadline s)).2 m).2).1 = false) :
    WritePump conn s (m :: rest) =
      [ConnCall.SetWriteDeadline, ConnCall.NextWriter true,
       ConnCall.Write m (conn.Write (conn.NextWriter (conn.SetWriteDeadline s)).2 m).1,
       ConnCall.WriterClose false, ConnCall.Close] := by
  simp [WritePump, hnw, hcl]

theorem WritePump_frame_written {σ : Type} (conn : Conn σ) (s : σ) (m : Bytes)
    (rest : List Bytes) (hnw : (conn.NextWriter (conn.SetWriteDeadline s)).1 = true)
    (hcl : (conn.WriterClose
      (conn.Write (conn.NextWriter (conn.SetWriteDeadline s)).2 m).2).1 = true) :
    WritePump conn s (m :: rest) =
      ConnCall.SetWriteDeadline :: ConnCall.NextWriter true ::
        ConnCall.Write m (conn.Write (conn.NextWriter (conn.SetWriteDeadline s)).2 m).1 ::
        ConnCall.WriterClose true ::
        WritePump conn
          (conn.WriterClose (conn.Write (conn.NextWriter (conn.SetWriteDeadline s)).2 m).2).2
          rest := by
  simp [WritePump, hnw, hcl]

theorem payloads_append (l₁ l₂ : List ConnCall) :
    payloads (l₁ ++ l₂) = payloads l₁ ++ payloads l₂ := by
  induction l₁ with
  | nil => rfl
  | cons a l ih =>
    cases a <;> simp [payloads, ih]

theorem payloads_frames (l : List Bytes) :
    payloads (frames (l.map fun m => (m, true))) = l := by
  induction l with
  | nil => rfl
  | cons m l ih =>
    show m :: payloads (frames (l.map fun m => (m, true))) = m :: l
    rw [ih]

theorem payloads_stoppingCalls {σ : Type} (conn : Conn σ) (s : σ) (left : List Bytes) :
    payloads (stoppingCalls conn s left) <+: left.take 1 := by
  cases left with
  | nil => simp [stoppingCalls, payloads]
  | cons m rest =>
    cases h : (conn.NextWriter (conn.SetWriteDeadline s)).1 with
    | false => simp [stoppingCalls, h, payloads]
    | true => simp [stoppingCalls, h, payloads]

theorem WritePump_trace {σ : Type} (conn : Conn σ) (hsticky : closeReportsWriteError conn)
    (queue : List Bytes) :
    ∀ s : σ, WritePump conn s queue =
      frames ((writtenBeforeFailure conn s queue).1.map fun m => (m, true)) ++
        stoppingCalls conn (writtenBeforeFailure conn s queue).2.1
          (writtenBeforeFailure conn s queue).2.2 := by
  induction queue with
  | nil =>
    intro s
    rfl
  | cons m rest ih =>
    intro s
    cases hnw : (conn.NextWriter (conn.SetWriteDeadline s)).1 with
    | false =>
      rw [WritePump_nextWriter_fails conn s m rest hnw]
      simp [writtenBeforeFailure, stepsSucceed, hnw, stoppingCalls, frames]
    | true =>
      cases hcl : (conn.WriterClose
          (conn.Write (conn.NextWriter (conn.SetWriteDeadline s)).2 m).2).1 with
      | false =>
        rw [WritePump_close_fails conn s m rest hnw hcl]
        simp [writtenBeforeFailure, stepsSucceed, hnw, hcl, stoppingCalls, frames]
      | true =>
        have hw : (conn.Write (conn.NextWriter (conn.SetWriteDeadline s)).2 m).1 = true := by
          cases h : (conn.Write (conn.NextWriter (conn.SetWriteDeadline s)).2 m).1 with
          | true => rfl
          | false =>
            have := hsticky _ _ h
            rw [hcl] at this
            cases this
        rw [WritePump_frame_written conn s m rest hnw hcl, hw, ih]
        simp [writtenBeforeFailure, stepsSucceed, hnw, hcl, hw, stateAfter, frames, frame]

theorem writtenBeforeFailure_split {σ : Type} (conn : Conn σ) (queue : List Bytes) :
    ∀ s : σ, (writtenBeforeFailure conn s queue).1 ++ (writtenBeforeFailure conn s queue).2.2
      = queue := by
  induction queue with
  | nil =>
    intro s
    rfl
  | cons m rest ih =>
    intro s
    cases h : stepsSucceed conn s m with
    | false => simp [writtenBeforeFailure, h]
    | true => simp [writtenBeforeFailure, h, ih]

theorem writtenBeforeFailure_fails {σ : Type} (conn : Conn σ) (queue : List Bytes) :
    ∀ (s : σ) (m : Bytes) (rest : List Bytes),
      (writtenBeforeFailure conn s queue).2.2 = m :: rest →
      stepsSucceed conn (writtenBeforeFailure conn s queue).2.1 m = false := by
  induction queue with
  | nil =>
    intro s m rest h
    simp [writtenBeforeFailure] at h
  | cons a l ih =>
    intro s m rest h
    cases hs : stepsSucceed conn s a with
    | false =>
      simp only [writtenBeforeFailure, hs, Bool.false_eq_true, if_false, List.cons.injEq] at h ⊢
      rw [← h.1]
      exact hs
    | true =>
      simp only [writtenBeforeFailure, hs, if_true] at h ⊢
      exact ih _ m rest h

theorem WritePump_nothing_after_failure {σ : Type} (conn : Conn σ)
    (hsticky : closeReportsWriteError conn) (queue : List Bytes) :
    ∀ (s : σ) (pre : List ConnCall) (e : ConnCall) (post : List ConnCall),
      WritePump conn s queue = pre ++ e :: post → failedStep e = true →
      payloads post = [] := by
  induction queue with
  | nil =>
    intro s pre e post h hf
    simp only [WritePump] at h
    rcases pre with _ | ⟨a, _ | ⟨b, _ | ⟨c, pre⟩⟩⟩ <;>
      simp only [List.nil_append, List.cons_append, List.cons.injEq] at h
    · rw [← h.1] at hf; cases hf
    · rw [← h.2.1] at hf; cases hf
    · rw [← h.2.2.1] at hf; cases hf
    · exact absurd h.2.2.2 (by simp)
  | cons m rest ih =>
    intro s pre e post h hf
    cases hnw : (conn.NextWriter (conn.SetWriteDeadline s)).1 with
    | false =>
      rw [WritePump_nextWriter_fails conn s m rest hnw] at h
      rcases pre with _ | ⟨a, _ | ⟨b, _ | ⟨c, pre⟩⟩⟩ <;>
        simp only [List.nil_append, List.cons_append, List.cons.injEq] at h
      · rw [← h.1] at hf; cases hf
      · rw [← h.2.2]; rfl
      · rw [← h.2.2.1] at hf; cases hf
      · exact absurd h.2.2.2 (by simp)
    | true =>
      cases hcl : (conn.WriterClose
          (conn.Write (conn.NextWriter (conn.SetWriteDeadline s)).2 m).2).1 with
      | false =>
        rw [WritePump_close_fails conn s m rest hnw hcl] at h
        rcases pre with _ | ⟨a, _ | ⟨b, _ | ⟨c, _ | ⟨d, _ | ⟨e5, pre⟩⟩⟩⟩⟩ <;>
          simp only [List.nil_append, List.cons_append, List.cons.injEq] at h
        · rw [← h.1] at hf; cases hf
        · rw [← h.2.1] at hf; cases hf
        · rw [← h.2.2.2]; rfl
        · rw [← h.2.2.2.2]; rfl
        · rw [← h.2.2.2.2.1] at hf; cases hf
        · exact absurd h.2.2.2.2.2 (by simp)
      | true =>
        have hw : (conn.Write (conn.NextWriter (conn.SetWriteDeadline s)).2 m).1 = true := by
          cases h2 : (conn.Write (conn.NextWriter (conn.SetWriteDeadline s)).2 m).1 with
          | true => rfl
          | false =>
            have := hsticky _ _ h2
            rw [hcl] at this
            cases this
        rw [WritePump_frame_written conn s m rest hnw hcl, hw] at h
        rcases pre with _ | ⟨a, _ | ⟨b, _ | ⟨c, _ | ⟨d, pre⟩⟩⟩⟩ <;>
          simp only [List.nil_append, List.cons_append, List.cons.injEq] at h
        · rw [← h.1] at hf; cases hf
        · rw [← h.2.1] at hf; cases hf
        · rw [← h.2.2.1] at hf; cases hf
        · rw [← h.2.2.2.1] at hf; cases hf
        · exact ih _ pre e post h.2.2.2.2 hf

theorem secondWriteFails_sticky : closeReportsWriteError secondWriteFails := by
  intro s message h
  by_cases h2 : s.1 = 2
  · simp [secondWriteFails, h2]
  · simp [secondWriteFails, h2] at h

/-- C8. On a socket whose writer reports a failed payload `Write` when it is
closed, as the writer of the websocket library does, `WritePump` run on a
queue that is then closed makes exactly these calls: one whole binary frame
(deadline, `NextWriter`, `Write`, `Close`, all succeeding) for each message
before the first message some step of which fails, in queue order; then, if
there is such a message, its steps up to the failing one and the closing of the
socket, else the close frame and the closing of the socket. The queue is split
at that message, no message after it is handed to the socket, and no payload
is written after a failed step. -/
theorem WritePump_writes_until_first_failure {σ : Type} (conn : Conn σ)
    (hsticky : closeReportsWriteError conn) (s : σ) (queue : List Bytes) :
    WritePump conn s queue =
      frames ((writtenBeforeFailure conn s queue).1.map fun m => (m, true)) ++
        stoppingCalls conn (writtenBeforeFailure conn s queue).2.1
          (writtenBeforeFailure conn s queue).2.2 ∧
    (writtenBeforeFailure conn s queue).1 ++ (writtenBeforeFailure conn s queue).2.2 = queue ∧
    (∀ (m : Bytes) (rest : List Bytes), (writtenBeforeFailure conn s queue).2.2 = m :: rest →
      stepsSucceed conn (writtenBeforeFailure conn s queue).2.1 m = false) ∧
    payloads (WritePump conn s queue) <+:
      (writtenBeforeFailure conn s queue).1 ++ (writtenBeforeFailure conn s queue).2.2.take 1 ∧
    (∀ (pre : List ConnCall) (e : ConnCall) (post : List ConnCall),
      WritePump conn s queue = pre ++ e :: post → failedStep e = true →
      payloads post = []) := by
  refine ⟨WritePump_trace conn hsticky queue s, writtenBeforeFailure_split conn queue s,
    writtenBeforeFailure_fails conn queue s, ?_,
    WritePump_nothing_after_failure conn hsticky queue s⟩
  rw [WritePump_trace conn hsticky queue s, payloads_append, payloads_frames]
  exact (List.prefix_append_right_inj _).mpr (payloads_stoppingCalls conn _ _)

/-- Witness for C8: on a socket that keeps write errors and whose second
payload write fails, the first of three messages is framed, the second is
attempted and its writer fails to close, and the third is never written. -/
theorem WritePump_writes_until_first_failure_witness :
    closeReportsWriteError secondWriteFails ∧
    WritePump secondWriteFails (0, false) [[1], [2], [3]] =
      [ConnCall.SetWriteDeadline, ConnCall.NextWriter true, ConnCall.Write [1] true,
       ConnCall.WriterClose true,
       ConnCall.SetWriteDeadline, ConnCall.NextWriter true, ConnCall.Write [2] false,
       ConnCall.WriterClose false, ConnCall.Close] :=
  ⟨secondWriteFails_sticky,
    (WritePump_writes_until_first_failure secondWriteFails secondWriteFails_sticky (0, false)
      [[1], [2], [3]]).1.trans (by decide)⟩

end ws

/-! ### The engine on the registry -/

namespace objmanager

theorem find_map_update (l : List Player) (id : Int) (f : Player → Player)
    (hf : ∀ p, (f p).id = p.id) :
    (l.map fun p => if p.id = id then f p else p).find? (fun p => p.id = id) =
      (l.find? fun p => p.id = id).map f := by
  induction l with
  | nil => rfl
  | cons a l ih =>
    by_cases h : a.id = id
    · simp [List.find?_cons, h, hf]
    · simp [List.find?_cons, h, ih]

theorem findPlayer_updatePlayer (w : Registry) (id : Int) (f : Player → Player)
    (hf : ∀ p, (f p).id = p.id) :
    findPlayer (updatePlayer w id f) id = (findPlayer w id).map f :=
  find_map_update w.players id f hf

theorem findPlayer_MovePlayer (w : Registry) (id : Int) (dx dy speed t : ℚ) :
    (findPlayer (MovePlayer w id dx dy speed t) id).isSome = (findPlayer w id).isSome := by
  unfold MovePlayer
  refine (congrArg Option.isSome (findPlayer_updatePlayer w id _ ?_)).trans ?_
  · exact fun _ => rfl
  · cases findPlayer w id <;> rfl

theorem findPlayer_SetPlayerPosition (w : Registry) (id : Int) (x y : ℚ) :
    (findPlayer (SetPlayerPosition w id x y) id).isSome = (findPlayer w id).isSome := by
  unfold SetPlayerPosition
  refine (congrArg Option.isSome (findPlayer_updatePlayer w id _ ?_)).trans ?_
  · exact fun _ => rfl
  · cases findPlayer w id <;> rfl

theorem findPlayer_SetCurrentInputNumber (w : Registry) (id n : Int)
    (hp : (findPlayer w id).isSome = true) :
    (findPlayer (SetCurrentInputNumber w id n) id).map (fun q => q.currentInputNumber)
      = some n := by
  unfold SetCurrentInputNumber
  refine (congrArg (Option.map fun q => q.currentInputNumber)
    (findPlayer_updatePlayer w id _ ?_)).trans ?_
  · exact fun _ => rfl
  · cases h : findPlayer w id with
    | none => rw [h] at hp; cases hp
    | some q => rfl

end objmanager

namespace gameImpl

/-- Witness for C2 on the two-player engine: two inputs for the unknown player 9. -/
theorem processInputs_unknown_player_witness :
    (∀ i ∈ [(moveInput 9 1, (0 : Time)), (setPositionInput 9 2, (1 : Time))],
      refersToUnknownPlayer (objmanager.objectManager config0) twoPlayerGame.objManager i.1
        = true) ∧
    processInputs (objmanager.objectManager config0) const0 twoPlayerGame
      [(moveInput 9 1, 0), (setPositionInput 9 2, 1)] = (twoPlayerGame, []) :=
  ⟨by decide,
    processInputs_unknown_player (objmanager.objectManager config0) const0 twoPlayerGame
      [(moveInput 9 1, 0), (setPositionInput 9 2, 1)] (by decide)⟩

/-- Witness for C3 on the two-player engine: player 0 may shoot from instant 5
on; a shot at instant 5 registers projectile 0 and broadcasts it. -/
theorem processInput_shoot_witness :
    (objmanager.objectManager config0).GetPlayerByID twoPlayerGame.objManager 0 = some 0 ∧
    (objmanager.objectManager config0).Player_GetNextReload twoPlayerGame.objManager 0 ≤ 5 ∧
    (processInput (objmanager.objectManager config0) const0 twoPlayerGame (shootInput 0) 5).2 =
      [Effect.Broadcast (Message_proto.ServerGameMessage.InitShootPayload
        { PlayerId := 0, Id := 0, X := 3, Y := 4, Dx := 1, Dy := 0 })] :=
  ⟨by decide, by decide,
    congrArg Prod.snd
      ((processInput_shoot (objmanager.objectManager config0) const0 twoPlayerGame
        0 3 4 1 0 0 0 5 0 (by decide)).2 (by decide))⟩

/-- Witness for C5 on the two-player engine: one tick, two broadcasts. -/
theorem Update_broadcasts_witness :
    (objmanager.objectManager config0).GetPlayers
      ((objmanager.objectManager config0).Update twoPlayerGame.objManager) = [0, 1] ∧
    (Update (objmanager.objectManager config0) twoPlayerGame).2 =
      [Effect.Broadcast (Message_proto.ServerGameMessage.UpdatePlayerPayload
        (some ⟨0, 7, "Alice", ⟨1, 1⟩, 0, 5⟩)),
       Effect.Broadcast (Message_proto.ServerGameMessage.UpdatePlayerPayload
        (some ⟨1, 8, "Bob", ⟨2, 2⟩, 0, 0⟩))] :=
  ⟨by decide,
    (Update_broadcasts (objmanager.objectManager config0) twoPlayerGame).2.2.2 0 1 (by decide)⟩

/-- Witness for C6 on the engine without players: removing client 7, for which
no player was registered, broadcasts the sentinel `-1`. -/
theorem RemovePlayerByClientID_removePlayer_witness :
    (emptyGame.destroyPlayerStream.length < const0.BufferSize ∧
      ((objmanager.objectManager config0).RemovePlayer emptyGame.objManager (-1) 7).2 = -1) ∧
    RemovePlayerByClientID const0 emptyGame 7 =
      some { emptyGame with destroyPlayerStream := [{ ClientID := 7, PlayerID := -1 }] } ∧
    (removePlayer (objmanager.objectManager config0) emptyGame (-1) 7).2 =
      [Effect.Broadcast (Message_proto.ServerGameMessage.RemovePlayerPayload (-1))] :=
  ⟨⟨by decide, by decide⟩,
    (RemovePlayerByClientID_removePlayer (objmanager.objectManager config0) const0 emptyGame
      7 (-1) (by decide) (by decide)).1,
    congrArg Prod.snd
      (RemovePlayerByClientID_removePlayer (objmanager.objectManager config0) const0 emptyGame
        7 (-1) (by decide) (by decide)).2.2.2⟩

/-- C7 as stated fails for `RemovePlayer`: called on the two-player engine for
player 0 it removes the player from the registry at the call and puts no
event on the destroy channel. -/
theorem RemovePlayer_mutates_registry :
    twoPlayerGame.objManager.players.map (fun p => p.id) = [0, 1] ∧
    (RemovePlayer (objmanager.objectManager config0) twoPlayerGame 0 (-1)).1.objManager.players.map
      (fun p => p.id) = [1] ∧
    (RemovePlayer (objmanager.objectManager config0) twoPlayerGame 0 (-1)).1.destroyPlayerStream
      = [] := by
  decide

/-- C9, amended. On the registry, after `processInput` has handled a
`MovePosition` or `SetPosition` input for a live player, the stored input
sequence number of the player is the number carried by the input, whatever it
was before; so it has not decreased exactly when the number of the input is
at least the stored one. -/
theorem processInput_stores_sequence_number (cfg : objmanager.Config) (c : gameconst)
    (g : gameImpl objmanager.types) (msg : Message_proto.ClientGameMessage) (now : Time)
    (id : Int) (p : objmanager.Player)
    (hmsg : movedPlayer msg = some id)
    (hp : objmanager.findPlayer g.objManager id = some p) :
    storedInputNumber g.objManager id = some p.currentInputNumber ∧
    storedInputNumber (processInput (objmanager.objectManager cfg) c g msg now).1.objManager id
      = some msg.InputSequenceNumber ∧
    (∀ n, storedInputNumber
        (processInput (objmanager.objectManager cfg) c g msg now).1.objManager id = some n →
      (p.currentInputNumber ≤ n ↔ p.currentInputNumber ≤ msg.InputSequenceNumber)) := by
  have hstored : storedInputNumber
      (processInput (objmanager.objectManager cfg) c g msg now).1.objManager id
        = some msg.InputSequenceNumber := by
    obtain ⟨seq, te, payload⟩ := msg
    cases payload with
    | none => simp [movedPlayer] at hmsg
    | some pl =>
      cases pl with
      | MovePositionPayload id2 dx dy =>
        simp only [movedPlayer, Option.some.injEq] at hmsg
        subst hmsg
        have hget : (objmanager.objectManager cfg).GetPlayerByID g.objManager id2 = some id2 := by
          show (objmanager.findPlayer g.objManager id2).map (fun q => q.id) = some id2
          rw [hp]
          have := List.find?_some hp
          simpa using this
        simp only [processInput, hget]
        show storedInputNumber (objmanager.SetCurrentInputNumber
          (objmanager.MovePlayer g.objManager id2 dx dy c.PlayerSpeed te) id2 seq) id2 = some seq
        refine objmanager.findPlayer_SetCurrentInputNumber _ id2 seq ?_
        rw [objmanager.findPlayer_MovePlayer, hp]
        rfl
      | ShootPayload pid x y dx dy => simp [movedPlayer] at hmsg
      | InitPlayerPayload cid name => simp [movedPlayer] at hmsg
      | SetPositionPayload id2 x y =>
        simp only [movedPlayer, Option.some.injEq] at hmsg
        subst hmsg
        have hget : (objmanager.objectManager cfg).GetPlayerByID g.objManager id2 = some id2 := by
          show (objmanager.findPlayer g.objManager id2).map (fun q => q.id) = some id2
          rw [hp]
          have := List.find?_some hp
          simpa using this
        simp only [processInput, hget]
        show storedInputNumber (objmanager.SetCurrentInputNumber
          (objmanager.SetPlayerPosition g.objManager id2 x y) id2 seq) id2 = some seq
        refine objmanager.findPlayer_SetCurrentInputNumber _ id2 seq ?_
        rw [objmanager.findPlayer_SetPlayerPosition, hp]
        rfl
  refine ⟨by simp [storedInputNumber, hp], hstored, ?_⟩
  intro n hn
  rw [hstored] at hn
  cases hn
  rfl

/-- C9 as stated fails: player 0 of the two-player engine has applied input
number 5 after a first `MovePosition` input and the lower number 3 after a
second one. -/
theorem sequence_number_can_decrease :
    storedInputNumber (processInputs (objmanager.objectManager config0) const0 twoPlayerGame
      [(moveInput 0 5, 0)]).1.objManager 0 = some 5 ∧
    storedInputNumber (processInputs (objmanager.objectManager config0) const0 twoPlayerGame
      [(moveInput 0 5, 0), (moveInput 0 3, 1)]).1.objManager 0 = some 3 := by
  decide

/-- Witness for C9, amended: a `SetPosition` input with number 4 for player 0. -/
theorem processInput_stores_sequence_number_witness :
    (movedPlayer (setPositionInput 0 4) = some 0 ∧
      objmanager.findPlayer twoPlayerGame.objManager 0 = some ⟨0, 7, "Alice", ⟨1, 1⟩, 0, 5⟩) ∧
    storedInputNumber (processInput (objmanager.objectManager config0) const0 twoPlayerGame
      (setPositionInput 0 4) 0).1.objManager 0 = some 4 :=
  ⟨⟨by decide, by decide⟩,
    (processInput_stores_sequence_number config0 const0 twoPlayerGame (setPositionInput 0 4) 0 0
      ⟨0, 7, "Alice", ⟨1, 1⟩, 0, 5⟩ (by decide) (by decide)).2.1⟩

end gameImpl

end Gowog
